import Mathlib

/-!
Shallow embedding of `src/threads.c` (the "city defender" curses game).

Conventions used throughout:
* C `int` values are modelled as `Int`; all divisions appearing in the
  source (`width / 4`, `width / 2`, `(INT_MAX - digit) / sum`) only ever
  run on non-negative operands, where C truncating division and Lean's
  integer division coincide.
* The curses screen is abstracted: a missile's reads of the screen cell
  in its own column are supplied by an environment function
  `env : Int → Char` (glyph found at a given row of that column).
* The shared `gameOver` flag, as observed by the attacker at its check
  points, is abstracted by an oracle `ext : Nat → Bool` indexed by the
  number of missiles spawned so far ("was game over externally set when
  this check ran").
* Threads' interleaving is irrelevant to the claims below: each claim is
  about one loop's own control flow and the layout/counter updates it
  performs under the single mutex.
-/

namespace CityDefender

/-! ### `strInt` (threads.c lines 116-129): string to int conversion -/

/-- The loop body of `strInt`: fold over the remaining characters,
rejecting non-digits and (via the `INT_MAX` guard) values that would
overflow a 32-bit `int`.  `sum` is the accumulator. -/
def strIntGo : List Char → Int → Option Int
  | [], sum => some sum
  | ch :: rest, sum =>
    let digit : Int := (ch.toNat : Int) - 48
    if digit < 0 ∨ digit > 9 then none
    else if sum ≠ 0 ∧ (2147483647 - digit) / sum < 10 then none
    else strIntGo rest (sum * 10 + digit)

/-- `strInt` from threads.c: a leading char equal to `-` is skipped by the
loop (the `i == 0 && str[i] == '-'` continue); afterwards the empty string
and the bare string `-` are rejected, and a leading `-` negates the sum.
`none` models returning 0 (failure), `some v` models returning 1 with
`*val = v`. -/
def strInt (str : List Char) : Option Int :=
  let body :=
    match str with
    | [] => some (0 : Int)
    | c :: rest => if c = '-' then strIntGo rest 0 else strIntGo (c :: rest) 0
  match body with
  | none => none
  | some sum =>
    match str with
    | [] => none
    | c :: rest =>
      if c = '-' then
        match rest with
        | [] => none
        | _ => some (-sum)
      else some sum

/-! ### Budget line processing (threads.c lines 188-199, in `createGame`) -/

/-- Processing of config line 3 inside `createGame`: failed conversion or a
negative value is a fatal error (distinct messages), and a parsed `0` is
replaced by the sentinel `-1` ("unlimited"). -/
def processBudgetLine (s : List Char) : Except String Int :=
  match strInt s with
  | none => Except.error "Error: missing missile specification."
  | some v =>
    if v < 0 then Except.error "Error: missile specification < 0."
    else Except.ok (if v = 0 then -1 else v)

/-! ### City layout -/

/-- `game->tallest` as computed by the parsing loop in `createGame`:
starts at `0` and is bumped to every strictly larger parsed height. -/
def tallestOf (l : List Int) : Int := l.foldl max 0

/-- The column height used by `launchMissile` (threads.c line 432):
`(x > game->size - 1) ? 2 : game->layout[x]` — columns beyond the parsed
layout default to the ground height 2.  (`x > size - 1` on C ints is
`x ≥ size` since `x ≥ 0`.) -/
def columnHeight (layout : List Int) (x : Nat) : Int :=
  if layout.length ≤ x then 2 else layout.getD x 2

/-- The layout mutation performed when a missile reaches its impact row
(threads.c lines 435-438): `if (x < size && layout[x] != 2) layout[x]--;`. -/
def layoutHit (layout : List Int) (x : Nat) : List Int :=
  if x < layout.length ∧ layout.getD x 2 ≠ 2 then
    layout.set x (layout.getD x 2 - 1)
  else layout

/-- Layouts reachable from `init` by any sequence of missile impacts
(each impact on an arbitrary column, as produced by `layoutHit`). -/
inductive ReachableLayout (init : List Int) : List Int → Prop
  | refl : ReachableLayout init init
  | step (l : List Int) (x : Nat) :
      ReachableLayout init l → ReachableLayout init (layoutHit l x)

/-! ### Missile actor (threads.c `launchMissile`, lines 412-462) -/

/-- The mutable state a missile thread owns: its row `y`, its glyph `c`
(`'|'` while falling, `'*'` once exploded), the remembered underlying
glyph `prevc`, and (shared) the city layout it may erode. -/
structure MState where
  y : Int
  c : Char
  prevc : Char
  layout : List Int
deriving DecidableEq, Repr

/-- One iteration of the `while (nmissile->c != '*')` loop in
`launchMissile`: advance the row, read the entered cell (blank once past
the bottom of the screen), then the four-way branch of lines 429-446:
shield glyph or an explosion glyph strictly above the tallest structure
explodes the missile; the column's impact row explodes it and erodes the
column via `layoutHit`; structural glyphs make the restore glyph blank;
anything else is remembered for the next restore. -/
def launchMissileStep (height tallest : Int) (env : Int → Char) (x : Nat)
    (s : MState) : MState :=
  let y := s.y + 1
  let g : Char := if y ≥ height then ' ' else env y
  if g = '#' ∨ (g = '*' ∧ y < height - tallest) then
    { s with y := y, c := '*' }
  else if y = height - columnHeight s.layout x + 1 then
    { s with y := y, c := '*', layout := layoutHit s.layout x }
  else if g = '|' ∨ g = '_' ∨ g = '?' ∨ g = '*' then
    { s with y := y, prevc := ' ' }
  else
    { s with y := y, prevc := g }

/-- The missile loop, fuel-bounded: stops (flag `true`) when the top-of-
loop test `c != '*'` fails or when the bottom-of-loop break `y > height`
fires; returns flag `false` only when the fuel runs out first. -/
def launchMissileRun (height tallest : Int) (env : Int → Char) (x : Nat) :
    Nat → MState → MState × Bool
  | 0, s => (s, false)
  | fuel + 1, s =>
    if s.c = '*' then (s, true)
    else
      let s' := launchMissileStep height tallest env x s
      if s'.y > height then (s', true)
      else launchMissileRun height tallest env x fuel s'

/-! ### Defender (threads.c `startDef`, lines 344-404) -/

/-- The four classes of keys `startDef` distinguishes. -/
inductive Key
  | quit
  | left
  | right
  | other
deriving DecidableEq, Repr

/-- Defender-side state: the shared `gameOver` flag, the local `_Bool b`
(initially `1`, cleared only by the quit key), and the shield's left
column `shieldX`. -/
structure DefState where
  gameOver : Bool
  b : Bool
  shieldX : Int
deriving DecidableEq, Repr

/-- `game->defender->shieldX` as set by `initDisplay` (line 288). -/
def initShieldX (width : Int) : Int := width / 2 - 2

/-- One body of the `startDef` loop for one key read: quit sets
`gameOver` and clears `b`; arrows move the shield only when the guard
(`shieldX > 0`, resp. `shieldX < width - 5`) holds; any other key does
nothing. -/
def defStep (width : Int) (s : DefState) (k : Key) : DefState :=
  match k with
  | Key.quit => { s with gameOver := true, b := false }
  | Key.left =>
    if s.shieldX > 0 then { s with shieldX := s.shieldX - 1 } else s
  | Key.right =>
    if s.shieldX < width - 5 then { s with shieldX := s.shieldX + 1 } else s
  | Key.other => s

/-- The `startDef` loop condition `!*gameOver || b`. -/
def defCond (s : DefState) : Bool := !s.gameOver || s.b

/-- The `startDef` loop over a stream of pending keys, counting how many
blocking `getch()` reads it performs.  An exhausted stream while the loop
condition still holds models the thread blocking on input. -/
def startDefRun (width : Int) : DefState → List Key → DefState × Nat
  | s, [] => (s, 0)
  | s, k :: ks =>
    if defCond s then
      let r := startDefRun width (defStep width s k) ks
      (r.1, r.2 + 1)
    else (s, 0)

/-! ### Attacker (threads.c `startAtk`, lines 470-528) -/

/-- `packetSize` (line 472):
`(width > 32) ? 8 : ((width / 4 == 0) ? width : width / 4)`. -/
def packetSize (width : Int) : Int :=
  if width > 32 then 8 else if width / 4 = 0 then width else width / 4

/-- Result of the inner spawning loop: the missile counter, the total
number of missiles spawned so far, and whether the loop ended by setting
`gameOver` (budget exhausted or externally observed game over). -/
structure AtkRes where
  tm : Int
  spawned : Nat
  go : Bool
deriving DecidableEq, Repr

/-- The inner `while (i < packetSize)` loop of `startAtk` (lines
487-503), with remaining slots `i`, counter `tm = totalMissiles` and
running spawn count `sp`.  After each spawn the line-495 test runs:
`*gameOver || ((totalMissiles > 0) ? (--totalMissiles == 0) : 0)` — note
the short-circuit: an externally observed game over skips the decrement. -/
def startAtkBatch (ext : Nat → Bool) : Nat → Int → Nat → AtkRes
  | 0, tm, sp => ⟨tm, sp, false⟩
  | i + 1, tm, sp =>
    let sp' := sp + 1
    if ext sp' then ⟨tm, sp', true⟩
    else if 0 < tm then
      if tm - 1 = 0 then ⟨tm - 1, sp', true⟩
      else startAtkBatch ext i (tm - 1) sp'
    else startAtkBatch ext i tm sp'

/-- Outcome of the outer attacker loop: final counter, total spawned,
the `gameOver` flag on exit, and whether the loop actually exited
(`finished = false` means the fuel ran out mid-run). -/
structure AtkFinal where
  tm : Int
  spawned : Nat
  gameOver : Bool
  finished : Bool
deriving DecidableEq, Repr

/-- The outer `while (!*nattacker->gameOver)` loop of `startAtk` (lines
485-507): observe the flag at the top (oracle `ext` at the current spawn
count), run one batch, and stop as soon as the batch set `gameOver`. -/
def startAtkLoop (ext : Nat → Bool) (ps : Nat) : Nat → Int → Nat → AtkFinal
  | 0, tm, sp => ⟨tm, sp, false, false⟩
  | fuel + 1, tm, sp =>
    if ext sp then ⟨tm, sp, true, true⟩
    else
      let r := startAtkBatch ext ps tm sp
      if r.go then ⟨r.tm, r.spawned, true, true⟩
      else startAtkLoop ext ps fuel r.tm r.spawned

/-! ### Orchestrator (`main`, lines 538-587) -/

/-- The startup pipeline slice relevant to the error-handling claims:
budget parsing happens inside `createGame`, before `initscr()`; the
geometry test (line 551) happens after the screen is initialized but
before anything is rendered.  An error carries its message and whether
rendering had been initialized when the process exited. -/
def mainFlow (budget : List Char) (height tallest : Int) :
    Except (String × Bool) Int :=
  match processBudgetLine budget with
  | Except.error m => Except.error (m, false)
  | Except.ok b =>
    if height - (if tallest < 2 then 2 else tallest) - 2 - 1 - 2 < 0 then
      Except.error ("Error: runtime terminal height shorter than layout.", true)
    else Except.ok b

/-! ### Helper lemmas: lists -/

theorem getD_set (l : List Int) (x i : Nat) (v d : Int) :
    (l.set x v).getD i d = if x = i ∧ x < l.length then v else l.getD i d := by
  induction l generalizing x i with
  | nil => simp
  | cons a t ih =>
    cases x with
    | zero =>
      cases i with
      | zero => simp
      | succ i => simp
    | succ x =>
      cases i with
      | zero => simp
      | succ i =>
        rw [List.set_cons_succ, List.getD_cons_succ, List.getD_cons_succ, ih]
        split_ifs with h1 h2 h2 <;> first | rfl | (exfalso; simp at h1 h2; omega)

theorem le_foldl_max (l : List Int) : ∀ a : Int, a ≤ l.foldl max a := by
  induction l with
  | nil => intro a; simp
  | cons h t ih =>
    intro a
    rw [List.foldl_cons]
    exact le_trans (le_max_left a h) (ih (max a h))

theorem mem_le_foldl_max (l : List Int) : ∀ (a x : Int), x ∈ l → x ≤ l.foldl max a := by
  induction l with
  | nil => simp
  | cons h t ih =>
    intro a x hx
    rw [List.foldl_cons]
    rcases List.mem_cons.mp hx with rfl | hx
    · exact le_trans (le_max_right a x) (le_foldl_max t _)
    · exact ih _ x hx

theorem getD_mem (l : List Int) : ∀ (i : Nat) (d : Int), i < l.length → l.getD i d ∈ l := by
  induction l with
  | nil => intro i d h; simp at h
  | cons a t ih =>
    intro i d h
    cases i with
    | zero => simp
    | succ i =>
      rw [List.getD_cons_succ]
      exact List.mem_cons_of_mem a (ih i d (by simpa using h))

/-! ### Helper lemmas: layout invariant -/

/-- The invariant of §8 of the spec, relative to an upper bound `T`. -/
def LayoutInv (T : Int) (l : List Int) : Prop :=
  ∀ i, i < l.length → 2 ≤ l.getD i 2 ∧ l.getD i 2 ≤ T

theorem layoutHit_length (l : List Int) (x : Nat) :
    (layoutHit l x).length = l.length := by
  unfold layoutHit
  split <;> simp

theorem layoutHit_inv {T : Int} {l : List Int} (x : Nat) (h : LayoutInv T l) :
    LayoutInv T (layoutHit l x) := by
  unfold layoutHit
  split
  case isTrue hc =>
    intro i hi
    rw [List.length_set] at hi
    rw [getD_set]
    split
    case isTrue h2 =>
      have h3 := h x hc.1
      have h4 := hc.2
      omega
    case isFalse h2 => exact h i hi
  case isFalse hc => exact h

theorem layoutHit_le (l : List Int) (x i : Nat) :
    (layoutHit l x).getD i 2 ≤ l.getD i 2 := by
  unfold layoutHit
  split
  case isTrue hc =>
    rw [getD_set]
    split
    case isTrue h2 =>
      rcases h2 with ⟨rfl, _⟩
      omega
    case isFalse h2 => exact le_refl _
  case isFalse hc => exact le_refl _

theorem layoutHit_at_floor (l : List Int) (x : Nat) (h : l.getD x 2 = 2) :
    layoutHit l x = l := by
  unfold layoutHit
  rw [if_neg]
  intro hc
  exact hc.2 h

theorem reachable_inv {T : Int} {init l : List Int} (h0 : LayoutInv T init)
    (hr : ReachableLayout init l) : LayoutInv T l := by
  induction hr with
  | refl => exact h0
  | step l x _ ih => exact layoutHit_inv x ih

/-! ### Helper lemmas: attacker batching -/

theorem startAtkBatch_zero (ext : Nat → Bool) (tm : Int) (sp : Nat) :
    startAtkBatch ext 0 tm sp = ⟨tm, sp, false⟩ := rfl

theorem startAtkBatch_ext (ext : Nat → Bool) (i : Nat) (tm : Int) (sp : Nat)
    (h : ext (sp + 1) = true) :
    startAtkBatch ext (i + 1) tm sp = ⟨tm, sp + 1, true⟩ := by
  simp only [startAtkBatch, h, if_true]

theorem startAtkBatch_last (ext : Nat → Bool) (i : Nat) (tm : Int) (sp : Nat)
    (h : ext (sp + 1) = false) (h1 : 0 < tm) (h2 : tm - 1 = 0) :
    startAtkBatch ext (i + 1) tm sp = ⟨tm - 1, sp + 1, true⟩ := by
  simp only [startAtkBatch, h]
  rw [if_neg (by simp), if_pos h1, if_pos h2]

theorem startAtkBatch_dec (ext : Nat → Bool) (i : Nat) (tm : Int) (sp : Nat)
    (h : ext (sp + 1) = false) (h1 : 0 < tm) (h2 : ¬tm - 1 = 0) :
    startAtkBatch ext (i + 1) tm sp = startAtkBatch ext i (tm - 1) (sp + 1) := by
  simp only [startAtkBatch, h]
  rw [if_neg (by simp), if_pos h1, if_neg h2]

theorem startAtkBatch_skip (ext : Nat → Bool) (i : Nat) (tm : Int) (sp : Nat)
    (h : ext (sp + 1) = false) (h1 : ¬0 < tm) :
    startAtkBatch ext (i + 1) tm sp = startAtkBatch ext i tm (sp + 1) := by
  simp only [startAtkBatch, h]
  rw [if_neg (by simp), if_neg h1]

theorem startAtkLoop_zero (ext : Nat → Bool) (ps : Nat) (tm : Int) (sp : Nat) :
    startAtkLoop ext ps 0 tm sp = ⟨tm, sp, false, false⟩ := rfl

theorem startAtkLoop_ext (ext : Nat → Bool) (ps fuel : Nat) (tm : Int) (sp : Nat)
    (h : ext sp = true) :
    startAtkLoop ext ps (fuel + 1) tm sp = ⟨tm, sp, true, true⟩ := by
  simp only [startAtkLoop, h, if_true]

theorem startAtkLoop_stop (ext : Nat → Bool) (ps fuel : Nat) (tm : Int) (sp : Nat)
    (h : ext sp = false) (hgo : (startAtkBatch ext ps tm sp).go = true) :
    startAtkLoop ext ps (fuel + 1) tm sp =
      ⟨(startAtkBatch ext ps tm sp).tm, (startAtkBatch ext ps tm sp).spawned,
        true, true⟩ := by
  simp only [startAtkLoop, h]
  rw [if_neg (by simp), if_pos hgo]

theorem startAtkLoop_next (ext : Nat → Bool) (ps fuel : Nat) (tm : Int) (sp : Nat)
    (h : ext sp = false) (hgo : ¬(startAtkBatch ext ps tm sp).go = true) :
    startAtkLoop ext ps (fuel + 1) tm sp =
      startAtkLoop ext ps fuel (startAtkBatch ext ps tm sp).tm
        (startAtkBatch ext ps tm sp).spawned := by
  simp only [startAtkLoop, h]
  rw [if_neg (by simp), if_neg hgo]

/-- Within a batch started with a positive counter: at most `tm` further
missiles are spawned, and if the batch ran its full width without setting
`gameOver` then the counter decreased by exactly the number of spawns and
is still positive. -/
theorem startAtkBatch_bound (ext : Nat → Bool) (i : Nat) :
    ∀ (tm : Int) (sp : Nat), 0 < tm →
      (startAtkBatch ext i tm sp).spawned ≤ sp + tm.toNat ∧
      ((startAtkBatch ext i tm sp).go = false →
        (startAtkBatch ext i tm sp).spawned +
            ((startAtkBatch ext i tm sp).tm).toNat = sp + tm.toNat ∧
          0 < (startAtkBatch ext i tm sp).tm) := by
  induction i with
  | zero =>
    intro tm sp h
    rw [startAtkBatch_zero]
    exact ⟨Nat.le_add_right sp tm.toNat, fun _ => ⟨rfl, h⟩⟩
  | succ i ih =>
    intro tm sp h
    by_cases he : ext (sp + 1) = true
    · rw [startAtkBatch_ext ext i tm sp he]
      exact ⟨by show sp + 1 ≤ sp + tm.toNat; omega,
        fun hgo => Bool.noConfusion hgo⟩
    · rw [Bool.not_eq_true] at he
      by_cases h2 : tm - 1 = 0
      · rw [startAtkBatch_last ext i tm sp he h h2]
        exact ⟨by show sp + 1 ≤ sp + tm.toNat; omega,
          fun hgo => Bool.noConfusion hgo⟩
      · rw [startAtkBatch_dec ext i tm sp he h h2]
        have h3 := ih (tm - 1) (sp + 1) (by omega)
        refine ⟨le_trans h3.1 (by omega), fun hgo => ?_⟩
        have h4 := h3.2 hgo
        omega

/-- Outer loop safety: started with a positive counter, the attacker
never spawns more than the counter allows, whatever the external
game-over oracle does and however much fuel it is given. -/
theorem startAtkLoop_bound (ext : Nat → Bool) (ps : Nat) :
    ∀ (fuel : Nat) (tm : Int) (sp : Nat), 0 < tm →
      (startAtkLoop ext ps fuel tm sp).spawned ≤ sp + tm.toNat := by
  intro fuel
  induction fuel with
  | zero =>
    intro tm sp h
    rw [startAtkLoop_zero]
    exact Nat.le_add_right sp tm.toNat
  | succ fuel ih =>
    intro tm sp h
    by_cases he : ext sp = true
    · rw [startAtkLoop_ext ext ps fuel tm sp he]
      exact Nat.le_add_right sp tm.toNat
    · rw [Bool.not_eq_true] at he
      have hb := startAtkBatch_bound ext ps tm sp h
      by_cases hgo : (startAtkBatch ext ps tm sp).go = true
      · rw [startAtkLoop_stop ext ps fuel tm sp he hgo]
        exact hb.1
      · rw [startAtkLoop_next ext ps fuel tm sp he hgo]
        have h2 := hb.2 (by simpa using hgo)
        exact le_trans (ih _ _ h2.2) (by omega)

/-- With no external interference and a positive counter no larger than
the batch width, the batch spawns exactly the counter and sets
`gameOver`. -/
theorem startAtkBatch_quiet_small : ∀ (i : Nat) (tm : Int) (sp : Nat),
    0 < tm → tm ≤ (i : Int) →
    startAtkBatch (fun _ => false) i tm sp = ⟨0, sp + tm.toNat, true⟩ := by
  intro i
  induction i with
  | zero =>
    intro tm sp h1 h2
    exfalso
    omega
  | succ i ih =>
    intro tm sp h1 h2
    by_cases h3 : tm - 1 = 0
    · rw [startAtkBatch_last _ i tm sp rfl h1 h3]
      have h4 : tm.toNat = 1 := by omega
      rw [h3, h4]
    · rw [startAtkBatch_dec _ i tm sp rfl h1 h3]
      rw [ih (tm - 1) (sp + 1) (by omega) (by push_cast at h2 ⊢; omega)]
      congr 1
      omega

/-- With no external interference and a counter exceeding the batch
width, the batch spawns its full width, decrements the counter by that
amount, and leaves `gameOver` clear. -/
theorem startAtkBatch_quiet_large : ∀ (i : Nat) (tm : Int) (sp : Nat),
    (i : Int) < tm →
    startAtkBatch (fun _ => false) i tm sp = ⟨tm - i, sp + i, false⟩ := by
  intro i
  induction i with
  | zero =>
    intro tm sp h
    rw [startAtkBatch_zero]
    simp
  | succ i ih =>
    intro tm sp h
    have h1 : 0 < tm := by push_cast at h; omega
    have h3 : ¬tm - 1 = 0 := by push_cast at h; omega
    rw [startAtkBatch_dec _ i tm sp rfl h1 h3]
    rw [ih (tm - 1) (sp + 1) (by push_cast at h ⊢; omega)]
    congr 1
    · push_cast
      ring
    · omega

/-- With no external interference, a positive budget of `tm` and enough
fuel, the attacker loop runs to completion having spawned exactly `tm`
missiles, and exits having set `gameOver`. -/
theorem startAtkLoop_quiet_exact (ps : Nat) (hps : 0 < ps) :
    ∀ (fuel : Nat) (tm : Int) (sp : Nat), 0 < tm → tm.toNat ≤ fuel →
      startAtkLoop (fun _ => false) ps fuel tm sp =
        ⟨0, sp + tm.toNat, true, true⟩ := by
  intro fuel
  induction fuel with
  | zero =>
    intro tm sp h1 h2
    exfalso
    omega
  | succ fuel ih =>
    intro tm sp h1 h2
    by_cases hc : tm ≤ (ps : Int)
    · have hb := startAtkBatch_quiet_small ps tm sp h1 hc
      rw [startAtkLoop_stop _ ps fuel tm sp rfl (by rw [hb])]
      rw [hb]
    · have hb := startAtkBatch_quiet_large ps tm sp (by omega)
      rw [startAtkLoop_next _ ps fuel tm sp rfl (by rw [hb]; simp)]
      rw [hb]
      rw [ih (tm - ps) (sp + ps) (by omega) (by omega)]
      congr 1
      omega

/-- The `-1` sentinel is never decremented by the spawn loop, whatever
the external game-over oracle does. -/
theorem startAtkBatch_sentinel (ext : Nat → Bool) : ∀ (i sp : Nat),
    (startAtkBatch ext i (-1) sp).tm = -1 := by
  intro i
  induction i with
  | zero => intro sp; rw [startAtkBatch_zero]
  | succ i ih =>
    intro sp
    by_cases he : ext (sp + 1) = true
    · rw [startAtkBatch_ext ext i _ sp he]
    · rw [Bool.not_eq_true] at he
      rw [startAtkBatch_skip ext i _ sp he (by omega)]
      exact ih (sp + 1)

/-- With the sentinel and no external interference, a batch spawns its
full width and leaves `gameOver` clear. -/
theorem startAtkBatch_unlimited : ∀ (i sp : Nat),
    startAtkBatch (fun _ => false) i (-1) sp = ⟨-1, sp + i, false⟩ := by
  intro i
  induction i with
  | zero =>
    intro sp
    rw [startAtkBatch_zero]
    simp
  | succ i ih =>
    intro sp
    rw [startAtkBatch_skip _ i _ sp rfl (by omega)]
    rw [ih (sp + 1)]
    congr 1
    omega

/-- With the sentinel and no external game over, the attacker loop never
finishes on its own, however much fuel it is given. -/
theorem startAtkLoop_unlimited (ps : Nat) : ∀ (fuel sp : Nat),
    (startAtkLoop (fun _ => false) ps fuel (-1) sp).finished = false := by
  intro fuel
  induction fuel with
  | zero => intro sp; rw [startAtkLoop_zero]
  | succ fuel ih =>
    intro sp
    rw [startAtkLoop_next _ ps fuel _ sp rfl
      (by rw [startAtkBatch_unlimited ps sp]; simp)]
    rw [startAtkBatch_unlimited ps sp]
    exact ih (sp + ps)

/-! ### Helper lemmas: missile actor -/

/-- Every branch of the loop body advances the row by exactly one. -/
theorem launchMissileStep_y (height tallest : Int) (env : Int → Char) (x : Nat)
    (s : MState) : (launchMissileStep height tallest env x s).y = s.y + 1 := by
  unfold launchMissileStep
  dsimp only
  split_ifs <;> rfl

/-- The loop body never changes the missile glyph except to `'*'`. -/
theorem launchMissileStep_c (height tallest : Int) (env : Int → Char) (x : Nat)
    (s : MState) : (launchMissileStep height tallest env x s).c = '*' ∨
      (launchMissileStep height tallest env x s).c = s.c := by
  unfold launchMissileStep
  dsimp only
  split_ifs <;> simp

/-- With fuel exceeding the number of rows left above the bottom of the
field, the missile loop reaches a loop exit (it does not just run out of
fuel). -/
theorem launchMissileRun_term (height tallest : Int) (env : Int → Char) (x : Nat) :
    ∀ (fuel : Nat) (s : MState), (height + 1 - s.y).toNat < fuel →
      (launchMissileRun height tallest env x fuel s).2 = true := by
  intro fuel
  induction fuel with
  | zero =>
    intro s h
    exfalso
    omega
  | succ fuel ih =>
    intro s h
    rw [launchMissileRun]
    by_cases hc : s.c = '*'
    · rw [if_pos hc]
    · rw [if_neg hc]
      have hy := launchMissileStep_y height tallest env x s
      by_cases hover : (launchMissileStep height tallest env x s).y > height
      · rw [if_pos hover]
      · rw [if_neg hover]
        exact ih _ (by omega)

/-- When the loop does exit, the missile has exploded or its row has
passed the bottom of the field. -/
theorem launchMissileRun_exit (height tallest : Int) (env : Int → Char) (x : Nat) :
    ∀ (fuel : Nat) (s : MState),
      (launchMissileRun height tallest env x fuel s).2 = true →
      (launchMissileRun height tallest env x fuel s).1.c = '*' ∨
        (launchMissileRun height tallest env x fuel s).1.y > height := by
  intro fuel
  induction fuel with
  | zero =>
    intro s h
    exact absurd h (by rw [launchMissileRun]; simp)
  | succ fuel ih =>
    intro s h
    rw [launchMissileRun] at h ⊢
    by_cases hc : s.c = '*'
    · rw [if_pos hc]
      exact Or.inl hc
    · rw [if_neg hc] at h ⊢
      by_cases hover : (launchMissileStep height tallest env x s).y > height
      · rw [if_pos hover]
        exact Or.inr hover
      · rw [if_neg hover] at h ⊢
        exact ih _ h

/-- A missile entering the impact row of a column standing at the floor
height 2 explodes there and leaves the layout unchanged. -/
theorem launchMissileStep_at_floor (height tallest : Int) (env : Int → Char)
    (x : Nat) (l : List Int) (pc : Char) (hx : l.getD x 2 = 2) :
    (launchMissileStep height tallest env x ⟨height - 2, '|', pc, l⟩).c = '*' ∧
    (launchMissileStep height tallest env x ⟨height - 2, '|', pc, l⟩).layout = l := by
  have hch : columnHeight l x = 2 := by
    unfold columnHeight
    split
    · rfl
    · exact hx
  unfold launchMissileStep
  dsimp only
  rw [hch]
  split_ifs <;>
    first
      | exact ⟨rfl, rfl⟩
      | exact ⟨rfl, layoutHit_at_floor l x hx⟩
      | (exfalso; omega)

/-! ### Concrete screen environments used in counterexamples -/

/-- Column picture for a first missile over a height-1 column: the
structure glyph `'_'` that `initDisplay` draws at row `height - 1 = 9`. -/
def cexEnvUnd : Int → Char := fun r => if r = 9 then '_' else ' '

/-- Column picture after that missile exploded at its impact row: the
`'?'` marker stamped one row above the explosion. -/
def cexEnvQm : Int → Char := fun r => if r = 9 then '?' else ' '

/-- Column picture after a missile exploded on a ground-level column at
row 9: the `'*'` glyph left at the explosion cell. -/
def cexEnvStar : Int → Char := fun r => if r = 9 then '*' else ' '

/-! ### Claim C1 -/

/-- C1 counterexample: with the spec's own layout `3 3 3 2 2` on a
10-row field (column 3 shows the `'_'` that `initDisplay` draws at row
8), a first missile down column 3 explodes at that column's impact row 9
(leaving `'*'` there); a second missile down column 3 then
reads `'*'` as the glyph of the cell it is about to enter at row 9 and
the code marks it Exploded — yet row 9 does *not* lie at or above the
top of column 3's remaining structure (`9 ≤ 10 - 2 = 8` is false), so
the claimed "if and only if" is false at this input.  (The code compares
against the *global* `height - tallest`, not the column's own height,
and separately explodes at the impact row.) -/
theorem chained_detonation_cex :
    launchMissileRun 10 (tallestOf [3, 3, 3, 2, 2])
        (fun r => if r = 8 then '_' else ' ') 3 10
        ⟨2, '|', ' ', [3, 3, 3, 2, 2]⟩ =
      (⟨9, '*', ' ', [3, 3, 3, 2, 2]⟩, true)
    ∧ ((if (8 : Int) + 1 ≥ 10 then ' ' else cexEnvStar (8 + 1)) = '*')
    ∧ (launchMissileStep 10 (tallestOf [3, 3, 3, 2, 2]) cexEnvStar 3
        ⟨8, '|', ' ', [3, 3, 3, 2, 2]⟩).c = '*'
    ∧ ¬((8 : Int) + 1 ≤ 10 - columnHeight [3, 3, 3, 2, 2] 3) := by decide

/-- C1 (amended): when the cell a falling missile is about to enter
holds the exploded-marker glyph `'*'`, the missile is marked Exploded if
and only if its new row lies strictly above the top of the *tallest*
structure (the global quantity `height - tallest`) or equals this
column's impact row `height - columnHeight + 1`. -/
theorem chained_detonation (height tallest : Int) (env : Int → Char)
    (x : Nat) (s : MState) (hc : s.c = '|')
    (hg : (if s.y + 1 ≥ height then ' ' else env (s.y + 1)) = '*') :
    (launchMissileStep height tallest env x s).c = '*' ↔
      (s.y + 1 < height - tallest ∨
        s.y + 1 = height - columnHeight s.layout x + 1) := by
  unfold launchMissileStep
  dsimp only
  rw [hg]
  by_cases hlt : s.y + 1 < height - tallest
  · rw [if_pos (Or.inr ⟨rfl, hlt⟩)]
    exact iff_of_true rfl (Or.inl hlt)
  · rw [if_neg (by
      intro hcon
      rcases hcon with h | h
      · exact absurd h (by decide)
      · exact hlt h.2)]
    by_cases himp : s.y + 1 = height - columnHeight s.layout x + 1
    · rw [if_pos himp]
      exact iff_of_true rfl (Or.inr himp)
    · rw [if_neg himp, if_pos (Or.inr (Or.inr (Or.inr rfl)))]
      dsimp only
      rw [hc]
      constructor
      · intro hcon
        exact absurd hcon (by decide)
      · intro hcon
        rcases hcon with h | h
        · exact absurd h hlt
        · exact absurd h himp

/-- Witness for `chained_detonation` at a concrete input. -/
theorem chained_detonation_witness :
    (launchMissileStep 10 0 (fun _ => '*') 0 ⟨2, '|', ' ', []⟩).c = '*' ↔
      ((2 : Int) + 1 < 10 - 0 ∨ (2 : Int) + 1 = 10 - columnHeight [] 0 + 1) :=
  chained_detonation 10 0 (fun _ => '*') 0 ⟨2, '|', ' ', []⟩ rfl (by decide)

/-! ### Claim C2 -/

/-- C2 counterexample: for field width 2 the code's batch size is 2
while `min(8, max(1, width / 4))` is 1, and for width 0 the code's batch
size is 0, below the claimed lower bound 1. -/
theorem packet_size_cex :
    packetSize 2 = 2
    ∧ min 8 (max 1 ((2 : Int) / 4)) = 1
    ∧ packetSize 2 ≠ min 8 (max 1 ((2 : Int) / 4))
    ∧ packetSize 0 = 0 := by decide

/-- C2 (amended): for every field width of at least 4, one attacker
batch has exactly `min(8, max(1, width / 4))` slots, a number between 1
and 8; for smaller widths the code instead uses the width itself (0, 2
or 3 slots at widths 0, 2, 3). -/
theorem packet_size_formula (width : Int) (hw : 4 ≤ width) :
    packetSize width = min 8 (max 1 (width / 4))
    ∧ 1 ≤ packetSize width ∧ packetSize width ≤ 8 := by
  simp only [packetSize, min_def, max_def]
  split_ifs <;> omega

/-- Witness for `packet_size_formula` at width 8. -/
theorem packet_size_formula_witness :
    packetSize 8 = min 8 (max 1 ((8 : Int) / 4))
    ∧ 1 ≤ packetSize 8 ∧ packetSize 8 ≤ 8 :=
  packet_size_formula 8 (by decide)

/-! ### Claim C3 -/

/-- C3: for a finite budget `N > 0` the attacker spawns at most `N`
missiles in total — whatever the external game-over oracle does and at
whatever point the run is observed — and, when game over is never set
by the defender side, an attacker with any positive batch width and
enough outer iterations spawns *exactly* `N` missiles, sets `gameOver`,
and stops. -/
theorem attacker_budget_exact (N ps fuel : Nat) (hN : 0 < N) (hps : 0 < ps)
    (hfuel : N ≤ fuel) :
    (∀ (ext : Nat → Bool) (f : Nat),
      (startAtkLoop ext ps f (N : Int) 0).spawned ≤ N)
    ∧ startAtkLoop (fun _ => false) ps fuel (N : Int) 0 = ⟨0, N, true, true⟩ := by
  have hN' : 0 < (N : Int) := by exact_mod_cast hN
  have hcast : ((N : Int)).toNat = N := by omega
  constructor
  · intro ext f
    have h := startAtkLoop_bound ext ps f (N : Int) 0 hN'
    rw [hcast] at h
    simpa using h
  · have h := startAtkLoop_quiet_exact ps hps fuel (N : Int) 0 hN' (by omega)
    rw [hcast] at h
    simpa using h

/-- Witness for `attacker_budget_exact`: budget 5, batch width 2. -/
theorem attacker_budget_exact_witness :
    (startAtkLoop (fun _ => true) 2 3 ((5 : Nat) : Int) 0).spawned ≤ 5
    ∧ startAtkLoop (fun _ => false) 2 5 ((5 : Nat) : Int) 0 = ⟨0, 5, true, true⟩ :=
  ⟨(attacker_budget_exact 5 2 5 (by decide) (by decide) (by decide)).1
      (fun _ => true) 3,
    (attacker_budget_exact 5 2 5 (by decide) (by decide) (by decide)).2⟩

/-! ### Claim C4 -/

/-- C4 counterexample: the claim quantifies over arbitrary non-negative
initial heights, but a column of initial height 1 is eroded to 0 by a
first missile (impact row `height - 1 + 1`), and a second missile down
the same column still reaches the impact row `height - 0 + 1` in its
last iteration and decrements the column to `-1` (the guard only stops
at exactly 2), violating `0 ≤ layout[i]`.  Both full missile descents
are evaluated here, and the resulting layout `[-1]` is reachable. -/
theorem layout_floor_cex :
    (∀ e ∈ ([1] : List Int), 0 ≤ e)
    ∧ launchMissileRun 10 (tallestOf [1]) cexEnvUnd 0 10 ⟨2, '|', ' ', [1]⟩ =
        (⟨10, '*', ' ', [0]⟩, true)
    ∧ launchMissileRun 10 (tallestOf [1]) cexEnvQm 0 10 ⟨2, '|', ' ', [0]⟩ =
        (⟨11, '*', ' ', [-1]⟩, true)
    ∧ ReachableLayout [1] [-1]
    ∧ ¬(0 ≤ ([-1] : List Int).getD 0 2) := by
  refine ⟨by decide, by decide, by decide, ?_, by decide⟩
  have h0 : ReachableLayout [1] [1] := ReachableLayout.refl
  have h1 := ReachableLayout.step [1] 0 h0
  have h2 := ReachableLayout.step (layoutHit [1] 0) 0 h1
  have e1 : layoutHit [1] 0 = [0] := by decide
  rw [e1] at h2
  have e2 : layoutHit [0] 0 = [-1] := by decide
  rw [e2] at h2
  exact h2

/-- C4 (amended): for initial layouts whose heights are all at least 2
(the floor value), every reachable layout keeps every column in
`[2, tallest]` (hence in `[0, tallest]`), a missile impact never
increases any column, and a column standing at the floor height 2 that
is hit again still registers a terminal collision (the missile explodes
at its impact row) while the column's height stays unchanged. -/
theorem layout_floor_invariant (init l : List Int)
    (hinit : ∀ e ∈ init, 2 ≤ e) (hr : ReachableLayout init l) :
    (∀ i, i < l.length →
      0 ≤ l.getD i 2 ∧ 2 ≤ l.getD i 2 ∧ l.getD i 2 ≤ tallestOf init)
    ∧ (∀ x i, (layoutHit l x).getD i 2 ≤ l.getD i 2)
    ∧ (∀ x, x < l.length → l.getD x 2 = 2 →
        layoutHit l x = l ∧
        ∀ (height tallest : Int) (env : Int → Char) (pc : Char),
          (launchMissileStep height tallest env x ⟨height - 2, '|', pc, l⟩).c = '*'
          ∧ (launchMissileStep height tallest env x
              ⟨height - 2, '|', pc, l⟩).layout = l) := by
  have h0 : LayoutInv (tallestOf init) init := by
    intro i hi
    exact ⟨hinit _ (getD_mem init i 2 hi),
      mem_le_foldl_max init 0 _ (getD_mem init i 2 hi)⟩
  have hinv := reachable_inv h0 hr
  refine ⟨fun i hi => ?_, fun x i => layoutHit_le l x i, fun x hx h2 => ?_⟩
  · have h := hinv i hi
    exact ⟨by omega, h.1, h.2⟩
  · exact ⟨layoutHit_at_floor l x h2, fun height tallest env pc =>
      launchMissileStep_at_floor height tallest env x l pc h2⟩

/-- Witness for `layout_floor_invariant`: layout `[3, 2]` after one hit
on column 0 becomes `[2, 2]`, whose entries stay in range and whose
floor column ignores further erosion. -/
theorem layout_floor_invariant_witness :
    (0 ≤ ([2, 2] : List Int).getD 0 2 ∧ 2 ≤ ([2, 2] : List Int).getD 0 2 ∧
      ([2, 2] : List Int).getD 0 2 ≤ tallestOf [3, 2])
    ∧ layoutHit [2, 2] 0 = [2, 2] :=
  have h0 : ReachableLayout [3, 2] [3, 2] := ReachableLayout.refl
  have h := layout_floor_invariant [3, 2] [2, 2] (by decide)
    (ReachableLayout.step [3, 2] 0 h0)
  ⟨h.1 0 (by decide), (h.2.2 0 (by decide) (by decide)).1⟩

/-! ### Claim C5 -/

/-- C5 counterexample: the loop condition is `!gameOver || b` with `b`
cleared only by the quit key.  After the defender itself reads quit the
condition is already false — the loop exits with exactly one read
performed, *not* one further iteration as claimed; and when game over is
set externally while `b` is still set, the condition is still true — the
defender performs a further blocking read, not the claimed immediate
exit. -/
theorem defender_exit_cex :
    defCond (defStep 80 ⟨false, true, 38⟩ Key.quit) = false
    ∧ (startDefRun 80 ⟨false, true, 38⟩ [Key.quit, Key.other, Key.other]).2 = 1
    ∧ defCond ⟨true, true, 38⟩ = true
    ∧ (startDefRun 80 ⟨true, true, 38⟩ [Key.other]).2 = 1 := by decide

/-- C5 (amended): when the defender itself reads the quit key the loop
condition `!gameOver || b` becomes false and the loop exits at its next
check without performing any further blocking read; when game over is
set externally and the defender has not pressed quit (`b` still set),
the loop condition remains true and the defender performs at least one
more blocking read. -/
theorem defender_exit (width : Int) (s : DefState) (k : Key) (ks : List Key) :
    (s.gameOver = false →
      defCond (defStep width s Key.quit) = false ∧
      startDefRun width (defStep width s Key.quit) ks =
        (defStep width s Key.quit, 0))
    ∧ (s.gameOver = true → s.b = true →
      defCond s = true ∧ 1 ≤ (startDefRun width s (k :: ks)).2) := by
  constructor
  · intro h
    have hcond : defCond (defStep width s Key.quit) = false := by
      simp [defCond, defStep]
    refine ⟨hcond, ?_⟩
    cases ks with
    | nil => rfl
    | cons k1 ks1 =>
      rw [startDefRun, hcond]
      simp
  · intro h1 h2
    have hcond : defCond s = true := by
      simp [defCond, h1, h2]
    refine ⟨hcond, ?_⟩
    rw [startDefRun, hcond]
    simp

/-- Witness for `defender_exit` at concrete states. -/
theorem defender_exit_witness :
    (defCond (defStep 80 ⟨false, true, 3⟩ Key.quit) = false ∧
      startDefRun 80 (defStep 80 ⟨false, true, 3⟩ Key.quit) [Key.other] =
        (defStep 80 ⟨false, true, 3⟩ Key.quit, 0))
    ∧ (defCond ⟨true, true, 3⟩ = true ∧
      1 ≤ (startDefRun 80 ⟨true, true, 3⟩ [Key.other]).2) :=
  ⟨(defender_exit 80 ⟨false, true, 3⟩ Key.other [Key.other]).1 rfl,
    (defender_exit 80 ⟨true, true, 3⟩ Key.other []).2 rfl rfl⟩

/-! ### Claim C6 -/

/-- C6 counterexample: at field width 4 the initial shield position
`width / 2 - 2 = 0` does not satisfy the claimed bound
`shieldX ≤ width - 5 = -1`. -/
theorem shield_bounds_cex :
    initShieldX 4 = 0 ∧ ¬(initShieldX 4 ≤ (4 : Int) - 5) := by decide

/-- C6 (amended): for every field width of at least 5 the initial shield
position `width / 2 - 2` lies in `[0, width - 5]`, every key handled by
the defender preserves that range, and a move that would leave the range
(left at 0, right at `width - 5`) is refused, leaving the state
unchanged. -/
theorem shield_bounds (width : Int) (hw : 5 ≤ width) (s : DefState) (k : Key)
    (hs : 0 ≤ s.shieldX ∧ s.shieldX ≤ width - 5) :
    (0 ≤ initShieldX width ∧ initShieldX width ≤ width - 5)
    ∧ (0 ≤ (defStep width s k).shieldX ∧
        (defStep width s k).shieldX ≤ width - 5)
    ∧ (s.shieldX = 0 → defStep width s Key.left = s)
    ∧ (s.shieldX = width - 5 → defStep width s Key.right = s) := by
  refine ⟨⟨?_, ?_⟩, ?_, ?_, ?_⟩
  · simp only [initShieldX]
    omega
  · simp only [initShieldX]
    omega
  · cases k with
    | quit => exact hs
    | other => exact hs
    | left =>
      simp only [defStep]
      split_ifs with h
      · dsimp only
        omega
      · exact hs
    | right =>
      simp only [defStep]
      split_ifs with h
      · dsimp only
        omega
      · exact hs
  · intro h0
    simp only [defStep]
    rw [if_neg (by omega)]
  · intro h0
    simp only [defStep]
    rw [if_neg (by omega)]

/-- Witness for `shield_bounds` at width 10. -/
theorem shield_bounds_witness :
    (0 ≤ initShieldX 10 ∧ initShieldX 10 ≤ 10 - 5)
    ∧ (0 ≤ (defStep 10 ⟨false, true, 0⟩ Key.left).shieldX ∧
        (defStep 10 ⟨false, true, 0⟩ Key.left).shieldX ≤ 10 - 5)
    ∧ ((⟨false, true, 0⟩ : DefState).shieldX = 0 →
        defStep 10 ⟨false, true, 0⟩ Key.left = ⟨false, true, 0⟩)
    ∧ ((⟨false, true, 0⟩ : DefState).shieldX = 10 - 5 →
        defStep 10 ⟨false, true, 0⟩ Key.right = ⟨false, true, 0⟩) :=
  shield_bounds 10 (by decide) ⟨false, true, 0⟩ Key.left ⟨by decide, by decide⟩

/-! ### Claim C7 -/

/-- C7: every spawned missile terminates after a bounded number of
ticks: each tick advances its row by exactly one, and the loop exits
once the missile is marked Exploded or its row has advanced past the
bottom of the field, so a missile starting at row 2 needs at most
`height` iterations (any `fuel ≥ height` reaches a loop exit, for any
screen contents, column and layout). -/
theorem missile_descent_terminates (height tallest : Int) (env : Int → Char)
    (x : Nat) (hh : 1 ≤ height) :
    (∀ s : MState, (launchMissileStep height tallest env x s).y = s.y + 1)
    ∧ (∀ (pc : Char) (l : List Int),
        (launchMissileRun height tallest env x height.toNat
          ⟨2, '|', pc, l⟩).2 = true)
    ∧ (∀ (fuel : Nat) (s : MState),
        (launchMissileRun height tallest env x fuel s).2 = true →
        (launchMissileRun height tallest env x fuel s).1.c = '*' ∨
          (launchMissileRun height tallest env x fuel s).1.y > height) := by
  refine ⟨launchMissileStep_y height tallest env x, ?_,
    launchMissileRun_exit height tallest env x⟩
  intro pc l
  apply launchMissileRun_term
  dsimp only
  omega

/-- Witness for `missile_descent_terminates` on a 10-row field. -/
theorem missile_descent_terminates_witness :
    (launchMissileRun 10 3 (fun _ => ' ') 0 (10 : Int).toNat
      ⟨2, '|', ' ', [3]⟩).2 = true :=
  (missile_descent_terminates 10 3 (fun _ => ' ') 0 (by decide)).2.1 ' ' [3]

/-! ### Claim C8 -/

/-- C8: a budget line that fails integer conversion, or converts to a
negative value, is a fatal configuration error (distinct error-stream
messages) raised before rendering is initialized; a budget of 0 is
stored as the sentinel `-1`; the sentinel is never decremented by the
attacker's spawn loop, so with no defender-side game over the attacker
never finishes on its own, while an observed external game over stops
it. -/
theorem budget_errors_and_sentinel :
    (∀ (s : List Char) (height tallest : Int), strInt s = none →
      processBudgetLine s = Except.error "Error: missing missile specification."
      ∧ mainFlow s height tallest =
          Except.error ("Error: missing missile specification.", false))
    ∧ (∀ (s : List Char) (v : Int) (height tallest : Int),
        strInt s = some v → v < 0 →
        processBudgetLine s = Except.error "Error: missile specification < 0."
        ∧ mainFlow s height tallest =
            Except.error ("Error: missile specification < 0.", false))
    ∧ (∀ s : List Char, strInt s = some 0 →
        processBudgetLine s = Except.ok (-1))
    ∧ (∀ (ext : Nat → Bool) (i sp : Nat), (startAtkBatch ext i (-1) sp).tm = -1)
    ∧ (∀ ps fuel sp : Nat,
        (startAtkLoop (fun _ => false) ps fuel (-1) sp).finished = false)
    ∧ (∀ ps fuel sp : Nat,
        startAtkLoop (fun _ => true) ps (fuel + 1) (-1) sp =
          ⟨-1, sp, true, true⟩) := by
  refine ⟨?_, ?_, ?_, startAtkBatch_sentinel, startAtkLoop_unlimited, ?_⟩
  · intro s height tallest h
    constructor
    · simp only [processBudgetLine, h]
    · simp only [mainFlow, processBudgetLine, h]
  · intro s v height tallest h hv
    constructor
    · simp only [processBudgetLine, h]
      rw [if_pos hv]
    · simp only [mainFlow, processBudgetLine, h]
      rw [if_pos hv]
  · intro s h
    simp [processBudgetLine, h]
  · intro ps fuel sp
    exact startAtkLoop_ext (fun _ => true) ps fuel (-1) sp rfl

/-- Witness for `budget_errors_and_sentinel` at concrete inputs: a
non-numeric budget `"x"` and a negative budget `"-3"`. -/
theorem budget_errors_and_sentinel_witness :
    (processBudgetLine ['x'] =
        Except.error "Error: missing missile specification."
      ∧ mainFlow ['x'] 24 3 =
          Except.error ("Error: missing missile specification.", false))
    ∧ processBudgetLine ['-', '3'] =
        Except.error "Error: missile specification < 0."
    ∧ processBudgetLine ['0'] = Except.ok (-1) :=
  ⟨budget_errors_and_sentinel.1 ['x'] 24 3 (by decide),
    (budget_errors_and_sentinel.2.1 ['-', '3'] (-3) 24 3 (by decide)
      (by decide)).1,
    budget_errors_and_sentinel.2.2.1 ['0'] (by decide)⟩

/-! ### Claim C9 -/

/-- C9: once the configuration stage has succeeded, the orchestrator
exits with a failure report — after the screen is initialized but before
anything is rendered — exactly when
`height - max 2 tallest - 2 - 1 - 2 < 0` (the source's
`(tallest < 2) ? 2 : tallest` is `max 2 tallest`); otherwise it proceeds
with the parsed budget. -/
theorem geometry_fail_iff (budget : List Char) (height tallest b : Int)
    (hb : processBudgetLine budget = Except.ok b) :
    (mainFlow budget height tallest =
        Except.error ("Error: runtime terminal height shorter than layout.", true)
      ↔ height - max 2 tallest - 2 - 1 - 2 < 0)
    ∧ (¬height - max 2 tallest - 2 - 1 - 2 < 0 →
        mainFlow budget height tallest = Except.ok b) := by
  have hmax : (if tallest < 2 then 2 else tallest) = max 2 tallest := by
    rcases le_or_lt 2 tallest with h | h
    · rw [if_neg (by omega), max_eq_right h]
    · rw [if_pos h, max_eq_left (by omega)]
  constructor
  · constructor
    · intro h
      simp only [mainFlow, hb, hmax] at h
      by_cases hc : height - max 2 tallest - 2 - 1 - 2 < 0
      · exact hc
      · rw [if_neg hc] at h
        exact absurd h (by simp)
    · intro h
      simp only [mainFlow, hb, hmax]
      rw [if_pos h]
  · intro h
    simp only [mainFlow, hb, hmax]
    rw [if_neg h]

/-- Witness for `geometry_fail_iff`: budget line `"5"`, height 10,
tallest 3. -/
theorem geometry_fail_iff_witness :
    (mainFlow ['5'] 10 3 =
        Except.error ("Error: runtime terminal height shorter than layout.", true)
      ↔ (10 : Int) - max 2 3 - 2 - 1 - 2 < 0)
    ∧ (¬(10 : Int) - max 2 3 - 2 - 1 - 2 < 0 →
        mainFlow ['5'] 10 3 = Except.ok 5) :=
  geometry_fail_iff ['5'] 10 3 5 (by rfl)

/-! ### Claim C10 -/

/-- C10: the integer parser accepts a leading `'-'` followed by digits
(whenever the digit loop accepts the tail, the signed string parses to
the negated value); in particular `"-0"` parses successfully to 0, so a
budget line `"-0"` is not rejected but accepted and stored as the
unlimited sentinel `-1`. -/
theorem minus_zero_budget :
    (∀ (ds : List Char) (v : Int), ds ≠ [] → strIntGo ds 0 = some v →
      strInt ('-' :: ds) = some (-v))
    ∧ strInt ['-', '0'] = some 0
    ∧ processBudgetLine ['-', '0'] = Except.ok (-1) := by
  refine ⟨?_, by decide, by rfl⟩
  intro ds v hne hgo
  cases ds with
  | nil => exact absurd rfl hne
  | cons d tail => simp [strInt, hgo]

/-- Witness for `minus_zero_budget`: the digit tail `"4"`. -/
theorem minus_zero_budget_witness :
    strInt ['-', '4'] = some (-4) :=
  minus_zero_budget.1 ['4'] 4 (by decide) (by decide)

end CityDefender
